import Mathlib

/-!
# go-horizon: the request-parameter extractor `ActionHelper`

A shallow embedding of `action_helper.go`.  A method with a pointer receiver
`func (a *ActionHelper) M(args) T` becomes a function
`M : ActionHelper → args → T × ActionHelper` returning the result together with
the receiver as the method leaves it.

Go strings are embedded as Lean strings and traversed character by character;
the library loops embedded here only ever accept ASCII characters, and every
byte of a multi-byte character falls into the same rejecting branch as the
character itself.  Machine integers are `Nat`/`Int` with explicit wrap-around.
-/

namespace Horizon

/-! ## Errors -/

/-- The sentinel errors of Go's `strconv` package (`ErrSyntax`, `ErrRange`) and
the error built by `bitSizeError`. -/
inductive StrconvErr where
  | ErrSyntax
  | ErrRange
  | ErrBitSize (bitSize : Nat)
  deriving DecidableEq, Repr

/-- A Go `error` value that is not nil: either a `*strconv.NumError`
(`Func`, `Num`, `Err`) or an error produced by a collaborator package. -/
inductive Error where
  | NumError (Func : String) (Num : String) (Err : StrconvErr)
  | External (msg : String)
  deriving DecidableEq, Repr

/-! ## `strconv.ParseUint` / `strconv.ParseInt` with the base argument 10 -/

def maxUint64 : Nat := 2 ^ 64 - 1

/-- The constant `strconv.IntSize` on a 64-bit platform. -/
def IntSize : Nat := 64

def fnParseUint : String := "ParseUint"

def fnParseInt : String := "ParseInt"

def syntaxError (fn str : String) : Error := Error.NumError fn str StrconvErr.ErrSyntax

def rangeError (fn str : String) : Error := Error.NumError fn str StrconvErr.ErrRange

def bitSizeError (fn str : String) (bitSize : Nat) : Error :=
  Error.NumError fn str (StrconvErr.ErrBitSize bitSize)

/-- The base passed by both call sites, `strconv.ParseInt(asStr, 10, _)`. -/
def base : Nat := 10

/-- The helper `lower(c) = c | ('x' - 'X')` on a byte. -/
def lower (c : Nat) : Nat := c ||| 32

/-- The digit `switch` of the `ParseUint` loop for a base that is not 0:
`some d` for the digit value, `none` for the `default` case. -/
def digitVal (c : Char) : Option Nat :=
  if 48 ≤ c.toNat ∧ c.toNat ≤ 57 then some (c.toNat - 48)
  else if 97 ≤ lower c.toNat ∧ lower c.toNat ≤ 122 then some (lower c.toNat - 97 + 10)
  else none

/-- The body of `for _, c := range []byte(s)` in `ParseUint`, with `n` the
running `uint64` value; `cutoff = maxUint64/10 + 1`. -/
def ParseUint.loop (s0 : String) (maxVal : Nat) : List Char → Nat → Nat × Option Error
  | [], n => (n, none)
  | c :: cs, n =>
    match digitVal c with
    | none => (0, some (syntaxError fnParseUint s0))
    | some d =>
      if d ≥ base then (0, some (syntaxError fnParseUint s0))
      else if n ≥ maxUint64 / 10 + 1 then (maxVal, some (rangeError fnParseUint s0))
      else
        let n' := (n * base) % 2 ^ 64
        let n1 := (n' + d) % 2 ^ 64
        if n1 < n' ∨ n1 > maxVal then (maxVal, some (rangeError fnParseUint s0))
        else ParseUint.loop s0 maxVal cs n1

/-- The call `strconv.ParseUint(s, 10, bitSize)`. -/
def ParseUint (s : String) (bitSize : Nat) : Nat × Option Error :=
  if s = "" then (0, some (syntaxError fnParseUint s))
  else if bitSize > 64 then (0, some (bitSizeError fnParseUint s bitSize))
  else
    let bitSize := if bitSize = 0 then IntSize else bitSize
    let maxVal := 2 ^ bitSize - 1
    ParseUint.loop s maxVal s.data 0

/-- The conversion `int64(u)` of a `uint64`. -/
def int64 (u : Int) : Int := (u + 2 ^ 63) % 2 ^ 64 - 2 ^ 63

/-- The conversion `int32(i)` of an `int64`. -/
def int32 (i : Int) : Int := (i + 2 ^ 31) % 2 ^ 32 - 2 ^ 31

/-- The test `err != nil && err.(*NumError).Err != ErrRange` of `ParseInt`:
the `Err` field of the error when the test holds. -/
def notRange : Option Error → Option StrconvErr
  | some (Error.NumError _ _ e) => if e ≠ StrconvErr.ErrRange then some e else none
  | _ => none

/-- The call `strconv.ParseInt(s, 10, bitSize)`. -/
def ParseInt (s : String) (bitSize : Nat) : Int × Option Error :=
  if s = "" then (0, some (syntaxError fnParseInt s))
  else
    let s0 := s
    let neg := s.data.head? = some '-'
    let s1 : String :=
      if s.data.head? = some '+' then String.mk s.data.tail
      else if s.data.head? = some '-' then String.mk s.data.tail
      else s
    let r := ParseUint s1 bitSize
    match notRange r.2 with
    | some e => (0, some (Error.NumError fnParseInt s0 e))
    | none =>
      let bitSize := if bitSize = 0 then IntSize else bitSize
      let cutoff := 2 ^ (bitSize - 1)
      if ¬ neg ∧ r.1 ≥ cutoff then (int64 (cutoff - 1 : Nat), some (rangeError fnParseInt s0))
      else if neg ∧ r.1 > cutoff then
        (int64 (-(int64 (cutoff : Nat))), some (rangeError fnParseInt s0))
      else
        let n := int64 (r.1 : Nat)
        (if neg then int64 (-n) else n, none)

/-! ## The request -/

/-- Go's `url.Values` and `http.Header`: `map[string][]string`, as an
association list read by its first matching key. -/
abbrev Values := List (String × List String)

/-- The method `func (v Values) Get(key string) string`. -/
def Values.Get (v : Values) (key : String) : String :=
  match v.lookup key with
  | none => ""
  | some vs =>
    match vs with
    | [] => ""
    | x :: _ => x

/-- The predicate `textproto.validHeaderFieldByte`: the token characters of RFC 7230. -/
def validHeaderFieldByte (c : Char) : Bool :=
  c.isAlphanum || c.toNat ∈ [33, 35, 36, 37, 38, 39, 42, 43, 45, 46, 94, 95, 96, 124, 126]

/-- The rewriting pass of `textproto.canonicalMIMEHeaderKey`: the first letter
and every letter after a hyphen in upper case, the others in lower case. -/
def canonicalLoop : Bool → List Char → List Char
  | _, [] => []
  | upper, c :: cs =>
    let c' := if upper then c.toUpper else c.toLower
    c' :: canonicalLoop (c == '-') cs

/-- The function `textproto.CanonicalMIMEHeaderKey`. -/
def CanonicalMIMEHeaderKey (s : String) : String :=
  if s.data.all validHeaderFieldByte then String.mk (canonicalLoop true s.data) else s

/-- The method `func (h Header) Get(key string) string`. -/
def Header.Get (h : Values) (key : String) : String :=
  Values.Get h (CanonicalMIMEHeaderKey key)

/-- The part of goji's `web.C` the getters read: `URLParams map[string]string`. -/
structure C where
  URLParams : List (String × String)
  deriving DecidableEq, Repr

/-- The part of `*http.Request` the getters read: the values returned by
`r.URL.Query()` and the header map `r.Header`. -/
structure Request where
  Query : Values
  Header : Values
  deriving DecidableEq, Repr

structure ActionHelper where
  c : C
  r : Request
  err : Option Error
  deriving DecidableEq, Repr

/-! ## Collaborators -/

/-- The two names `GetAddress` uses from package `stellarbase`. -/
structure StellarBase where
  VersionByteAccountID : Nat
  DecodeBase58Check : Nat → String → List Nat × Option Error

/-! ## The methods of `ActionHelper` -/

def Err (a : ActionHelper) : Option Error × ActionHelper := (a.err, a)

def GetString (a : ActionHelper) (name : String) : String × ActionHelper :=
  if a.err ≠ none then ("", a)
  else
    match a.c.URLParams.lookup name with
    | some fromUrl => (fromUrl, a)
    | none => (a.r.Query.Get name, a)

def GetInt64 (a : ActionHelper) (name : String) : Int × ActionHelper :=
  if a.err ≠ none then (0, a)
  else
    let s := GetString a name
    if s.1 = "" then (0, s.2)
    else
      let p := ParseInt s.1 64
      if p.2 ≠ none then (0, { s.2 with err := p.2 })
      else (p.1, s.2)

def GetInt32 (a : ActionHelper) (name : String) : Int × ActionHelper :=
  if a.err ≠ none then (0, a)
  else
    let s := GetString a name
    if s.1 = "" then (0, s.2)
    else
      let p := ParseInt s.1 32
      if p.2 ≠ none then (0, { s.2 with err := p.2 })
      else (int32 p.1, s.2)

def GetPagingParams (a : ActionHelper) : (String × String × Int) × ActionHelper :=
  if a.err ≠ none then (("", "", 0), a)
  else
    let cursor := GetString a "cursor"
    let order := GetString cursor.2 "order"
    let limit := GetInt32 order.2 "limit"
    let lei := Header.Get limit.2.r.Header "Last-Event-ID"
    ((if lei ≠ "" then lei else cursor.1, order.1, limit.1), limit.2)

/-- The method `GetPageQuery`, with `db.NewPageQuery` and its result type as parameters. -/
def GetPageQuery {PageQuery : Type}
    (NewPageQuery : String → String → Int → PageQuery × Option Error)
    (a : ActionHelper) : PageQuery × ActionHelper :=
  let p := GetPagingParams a
  let q := NewPageQuery p.1.1 p.1.2.1 p.1.2.2
  (q.1, { p.2 with err := q.2 })

def GetAddress (sb : StellarBase) (a : ActionHelper) (name : String) : String × ActionHelper :=
  if a.err ≠ none then ("", a)
  else
    let address := GetString a name
    let d := sb.DecodeBase58Check sb.VersionByteAccountID address.1
    (address.1, { address.2 with err := d.2 })

/-! ## Example requests -/

/-- The request of the repository's test: `/?limit=2&cursor=hello` with path
parameters `blank`, `zero`, `two`, `64max`, ..., here also with a path parameter
`cursor`, an empty path parameter `limit` and a `Last-Event-ID` header. -/
def testHelper : ActionHelper :=
  { c := { URLParams := [("blank", ""), ("zero", "0"), ("two", "2"), ("limit", ""),
      ("cursor", "from_path"), ("32max", "2147483647"), ("32min", "-2147483648"),
      ("64max", "9223372036854775807"), ("64min", "-9223372036854775808")] }
    r := { Query := [("limit", ["2"]), ("cursor", ["hello"]), ("order", ["desc", "asc"])]
           Header := [("Last-Event-Id", ["from_header"])] }
    err := none }

/-- The test helper after `GetInt32("64max")` has failed. -/
def latchedHelper : ActionHelper :=
  { testHelper with err := some (rangeError fnParseInt "9223372036854775807") }

/-- A paging-query constructor that accepts every triple and returns it. -/
def acceptAll (cursor order : String) (limit : Int) : (String × String × Int) × Option Error :=
  ((cursor, order, limit), none)

/-- A paging-query constructor that rejects every triple. -/
def rejectEvery (_cursor _order : String) (_limit : Int) :
    (String × String × Int) × Option Error :=
  (("", "", 0), some (Error.External "invalid page query"))

/-- A codec that rejects every string. -/
def rejectAll : StellarBase :=
  { VersionByteAccountID := 0
    DecodeBase58Check := fun _ _ => ([], some (Error.External "invalid address")) }

/-- The request of the test "GetPagingParams": `/?limit=2&cursor=hello` with no
path parameters and no header. -/
def pagingHelper : ActionHelper :=
  { c := { URLParams := [] }
    r := { Query := [("limit", ["2"]), ("cursor", ["hello"])], Header := [] }
    err := none }

/-- A request whose `limit` is not a number: `/?limit=abc&cursor=hello&order=desc`. -/
def badLimitHelper : ActionHelper :=
  { c := { URLParams := [] }
    r := { Query := [("limit", ["abc"]), ("cursor", ["hello"]), ("order", ["desc"])]
           Header := [] }
    err := none }

/-- The request of the test "GetAddress": path parameters `blank`, `two`, `seed`
and `addy_path`, and the query parameter `addy`. -/
def addressHelper : ActionHelper :=
  { c := { URLParams := [("blank", ""), ("two", "2"),
      ("seed", "s3Fy8h5LEcYVE8aofthKWHeJpygbntw5HgcekFw93K6XqTW4gEx"),
      ("addy_path", "gQANmQ3bQkt6VbPrqGmKHq1EuT2cRkFsftDfEhWqdvJgTiibyu")] }
    r := { Query := [("addy", ["gQANmQ3bQkt6VbPrqGmKHq1EuT2cRkFsftDfEhWqdvJgTiibyu"])]
           Header := [] }
    err := none }

/-- A codec that accepts, for the account version byte 0, exactly the account
address of the test "GetAddress", and rejects every other string. -/
def accountCodec : StellarBase :=
  { VersionByteAccountID := 0
    DecodeBase58Check := fun version encoded =>
      if version = 0 ∧ encoded = "gQANmQ3bQkt6VbPrqGmKHq1EuT2cRkFsftDfEhWqdvJgTiibyu"
      then ([], none) else ([], some (Error.External "invalid address")) }

/-! ## Vocabulary of the specification -/

def INT32_MIN : Int := -2147483648

def INT32_MAX : Int := 2147483647

def INT64_MIN : Int := -9223372036854775808

def INT64_MAX : Int := 9223372036854775807

/-- A base-10 digit, one of the characters 0 to 9. -/
def isDecDigit (c : Char) : Bool := decide (48 ≤ c.toNat ∧ c.toNat ≤ 57)

/-- The number that the base-10 digits `cs` denote when they follow digits
already denoting `acc`. -/
def decValue (acc : Nat) (cs : List Char) : Nat :=
  cs.foldl (fun v c => 10 * v + (c.toNat - 48)) acc

/-- The number denoted by a base-10 digit string, which has one digit or more. -/
def digitString (cs : List Char) : Option Nat :=
  if cs ≠ [] ∧ cs.all isDecDigit = true then some (decValue 0 cs) else none

/-- The integer denoted by an optionally signed base-10 digit string. -/
def signedDecimal (s : String) : Option Int :=
  match s.data with
  | [] => none
  | c :: cs =>
    if c = '+' then (digitString cs).map Int.ofNat
    else if c = '-' then (digitString cs).map fun (v : Nat) => -Int.ofNat v
    else (digitString (c :: cs)).map Int.ofNat

/-- The decimal rendering of an integer, as `fmt.Sprint` prints it: the digits
of the absolute value without leading zeros, after a minus sign when the
integer is negative. -/
def decimal : Int → String
  | Int.ofNat m => Nat.repr m
  | Int.negSucc m => "-" ++ Nat.repr (m + 1)

/-! ## The error latch -/

/-- C1: when `err` is already set, `GetString`, `GetInt64`, `GetInt32`,
`GetPagingParams` and `GetAddress` return their zero values and leave `err`
equal to the original error, whatever the path parameters, the query string and
the headers hold. -/
theorem latched_getters_return_zero (sb : StellarBase) (a : ActionHelper) (e : Error)
    (name : String) (h : a.err = some e) :
    ((GetString a name).1 = "" ∧ (GetString a name).2.err = some e) ∧
    ((GetInt64 a name).1 = 0 ∧ (GetInt64 a name).2.err = some e) ∧
    ((GetInt32 a name).1 = 0 ∧ (GetInt32 a name).2.err = some e) ∧
    ((GetPagingParams a).1 = ("", "", 0) ∧ (GetPagingParams a).2.err = some e) ∧
    ((GetAddress sb a name).1 = "" ∧ (GetAddress sb a name).2.err = some e) := by
  simp [GetString, GetInt64, GetInt32, GetPagingParams, GetAddress, h]

theorem latched_getters_return_zero_witness :
    latchedHelper.c.URLParams.lookup "cursor" = some "from_path" ∧
    latchedHelper.r.Query.lookup "cursor" = some ["hello"] ∧
    Header.Get latchedHelper.r.Header "Last-Event-ID" = "from_header" ∧
    ((GetString latchedHelper "cursor").1 = "" ∧
      (GetString latchedHelper "cursor").2.err
        = some (rangeError fnParseInt "9223372036854775807")) ∧
    ((GetInt64 latchedHelper "cursor").1 = 0 ∧
      (GetInt64 latchedHelper "cursor").2.err
        = some (rangeError fnParseInt "9223372036854775807")) ∧
    ((GetInt32 latchedHelper "cursor").1 = 0 ∧
      (GetInt32 latchedHelper "cursor").2.err
        = some (rangeError fnParseInt "9223372036854775807")) ∧
    ((GetPagingParams latchedHelper).1 = ("", "", 0) ∧
      (GetPagingParams latchedHelper).2.err
        = some (rangeError fnParseInt "9223372036854775807")) ∧
    ((GetAddress rejectAll latchedHelper "cursor").1 = "" ∧
      (GetAddress rejectAll latchedHelper "cursor").2.err
        = some (rangeError fnParseInt "9223372036854775807")) :=
  ⟨by decide, by decide, by decide,
    latched_getters_return_zero rejectAll latchedHelper
      (rangeError fnParseInt "9223372036854775807") "cursor" rfl⟩

/-- C2 (the code at the failing input): `GetPageQuery` does not check the latch.
On a helper whose `err` is already set, with a constructor that accepts the zero
triple, `err` is empty after the call: the original error has been cleared.
With a constructor that rejects the triple, `err` is the error of the
constructor: the original error has been overwritten. -/
theorem GetPageQuery_clears_latched_error :
    latchedHelper.err = some (rangeError fnParseInt "9223372036854775807") ∧
    (GetPageQuery acceptAll latchedHelper).1 = ("", "", 0) ∧
    (GetPageQuery acceptAll latchedHelper).2.err = none ∧
    (GetPageQuery rejectEvery latchedHelper).2.err
      = some (Error.External "invalid page query") := by
  decide

/-! ## `GetString` -/

/-- C3: with no error, a name that is a key of the path parameters is read from
the path parameters, whatever the query string holds, and `err` stays empty. -/
theorem GetString_path_first (a : ActionHelper) (name v : String)
    (h : a.err = none) (hp : a.c.URLParams.lookup name = some v) :
    (GetString a name).1 = v ∧ (GetString a name).2.err = none := by
  simp [GetString, h, hp]

theorem GetString_path_first_witness :
    testHelper.r.Query.Get "limit" = "2" ∧
    (GetString testHelper "limit").1 = "" ∧ (GetString testHelper "limit").2.err = none :=
  ⟨by decide, GetString_path_first testHelper "limit" "" rfl (by decide)⟩

/-- C4: with no error, a name absent from both the path parameters and the
query string reads as the empty string, and `err` is still empty. -/
theorem GetString_absent (a : ActionHelper) (name : String)
    (h : a.err = none) (hp : a.c.URLParams.lookup name = none)
    (hq : a.r.Query.lookup name = none) :
    (GetString a name).1 = "" ∧ (GetString a name).2.err = none := by
  simp [GetString, Values.Get, h, hp, hq]

theorem GetString_absent_witness :
    (GetString testHelper "id").1 = "" ∧ (GetString testHelper "id").2.err = none :=
  GetString_absent testHelper "id" rfl (by decide) (by decide)

/-! ## The parsing loop of `strconv.ParseUint` -/

theorem decValue_cons (acc : Nat) (c : Char) (cs : List Char) :
    decValue acc (c :: cs) = decValue (10 * acc + (c.toNat - 48)) cs := rfl

theorem decValue_append (acc : Nat) (cs ds : List Char) :
    decValue acc (cs ++ ds) = decValue (decValue acc cs) ds := by
  simp [decValue, List.foldl_append]

theorem le_decValue (cs : List Char) : ∀ acc : Nat, acc ≤ decValue acc cs := by
  induction cs with
  | nil => intro acc; simp [decValue]
  | cons c cs ih =>
    intro acc
    rw [decValue_cons]
    exact le_trans (by omega) (ih _)

theorem digitVal_of_digit (c : Char) (h : isDecDigit c = true) :
    digitVal c = some (c.toNat - 48) ∧ c.toNat - 48 < 10 := by
  simp only [isDecDigit, decide_eq_true_eq] at h
  refine ⟨by simp [digitVal, h], by omega⟩

theorem digitVal_of_not_digit (c : Char) (h : isDecDigit c = false) :
    digitVal c = none ∨ ∃ d, digitVal c = some d ∧ 10 ≤ d := by
  simp only [isDecDigit, decide_eq_false_iff_not] at h
  unfold digitVal
  rw [if_neg h]
  split
  · exact Or.inr ⟨_, rfl, by omega⟩
  · exact Or.inl rfl

/-- The loop of `ParseUint` returns the denoted number exactly when every
character is a digit and the number does not exceed `maxVal`; otherwise it
returns a syntax error with 0 or a range error with `maxVal`. -/
theorem loop_spec (s0 : String) (maxVal : Nat) (hm : maxVal < 2 ^ 64) :
    ∀ (cs : List Char) (n : Nat), n ≤ maxVal →
      (cs.all isDecDigit = true ∧ decValue n cs ≤ maxVal ∧
          ParseUint.loop s0 maxVal cs n = (decValue n cs, none)) ∨
      (¬ (cs.all isDecDigit = true ∧ decValue n cs ≤ maxVal) ∧
          (ParseUint.loop s0 maxVal cs n = (0, some (syntaxError fnParseUint s0)) ∨
           ParseUint.loop s0 maxVal cs n = (maxVal, some (rangeError fnParseUint s0)))) := by
  intro cs
  induction cs with
  | nil =>
    intro n hn
    left
    simp [decValue, ParseUint.loop, hn]
  | cons c cs ih =>
    intro n hn
    have hmono := le_decValue cs (10 * n + (c.toNat - 48))
    cases hd : isDecDigit c with
    | false =>
      right
      refine ⟨by simp [hd], Or.inl ?_⟩
      rcases digitVal_of_not_digit c hd with h | ⟨d, h, hge⟩
      · simp [ParseUint.loop, h]
      · simp [ParseUint.loop, h, base, hge]
    | true =>
      obtain ⟨hv, hlt⟩ := digitVal_of_digit c hd
      have hpow : (2 : Nat) ^ 64 = 18446744073709551616 := by norm_num
      rw [hpow] at hm
      by_cases hcut : n ≥ maxUint64 / 10 + 1
      · right
        have hcut2 : 1844674407370955162 ≤ n := by
          simpa [maxUint64] using hcut
        refine ⟨?_, Or.inr ?_⟩
        · rintro ⟨-, hle⟩
          rw [decValue_cons] at hle
          omega
        · simp only [ParseUint.loop, hv, base]
          rw [if_neg (by omega), if_pos hcut]
      · have hcut2 : n < 1844674407370955162 := by
          simpa [maxUint64] using hcut
        have hn1 : (n * 10) % 2 ^ 64 = n * 10 := by
          rw [hpow]; omega
        by_cases hbad : ((n * 10) + (c.toNat - 48)) % 2 ^ 64 < n * 10 ∨
            ((n * 10) + (c.toNat - 48)) % 2 ^ 64 > maxVal
        · right
          refine ⟨?_, Or.inr ?_⟩
          · rintro ⟨-, hle⟩
            rw [decValue_cons] at hle
            rw [hpow] at hbad
            omega
          · simp only [ParseUint.loop, hv, base]
            rw [if_neg (by omega), if_neg hcut]
            simp only [hn1]
            rw [if_pos hbad]
        · have hstep : ParseUint.loop s0 maxVal (c :: cs) n
              = ParseUint.loop s0 maxVal cs (10 * n + (c.toNat - 48)) := by
            simp only [ParseUint.loop, hv, base]
            rw [if_neg (by omega), if_neg hcut]
            simp only [hn1]
            rw [if_neg hbad]
            congr 1
            rw [hpow] at hbad ⊢
            omega
          have hle : 10 * n + (c.toNat - 48) ≤ maxVal := by
            rw [hpow] at hbad
            omega
          rw [hstep, decValue_cons]
          simpa [hd] using ih _ hle

/-! ## `ParseUint` and `ParseInt` against the denoted number -/

/-- At bit size 32 or 64, `ParseUint` returns the number a digit string denotes
when it fits the bit size, and otherwise a syntax error with 0 or a range error
with the largest value of the bit size. -/
theorem ParseUint_spec (s : String) (bitSize : Nat) (hb : bitSize = 32 ∨ bitSize = 64) :
    (∃ v, digitString s.data = some v ∧ v ≤ 2 ^ bitSize - 1 ∧ ParseUint s bitSize = (v, none)) ∨
    ((¬ ∃ v, digitString s.data = some v ∧ v ≤ 2 ^ bitSize - 1) ∧
      (ParseUint s bitSize = (0, some (syntaxError fnParseUint s)) ∨
       ParseUint s bitSize = (2 ^ bitSize - 1, some (rangeError fnParseUint s)))) := by
  by_cases hs : s = ""
  · right
    subst hs
    refine ⟨?_, Or.inl ?_⟩
    · simp [digitString]
    · simp [ParseUint]
  · have hne : s.data ≠ [] := by
      intro h
      apply hs
      cases s
      simp_all
    have hlt : 2 ^ bitSize - 1 < 2 ^ 64 := by
      rcases hb with rfl | rfl <;> norm_num
    have hP : ParseUint s bitSize = ParseUint.loop s (2 ^ bitSize - 1) s.data 0 := by
      rcases hb with rfl | rfl <;> simp [ParseUint, hs]
    rw [hP]
    rcases loop_spec s (2 ^ bitSize - 1) hlt s.data 0 (Nat.zero_le _) with
      ⟨hall, hle, hl⟩ | ⟨hno, hl⟩
    · left
      exact ⟨decValue 0 s.data, by simp [digitString, hne, hall], hle, hl⟩
    · right
      refine ⟨?_, hl⟩
      rintro ⟨v, hv, hle⟩
      apply hno
      unfold digitString at hv
      split at hv
      · rename_i hc
        simp only [Option.some.injEq] at hv
        exact ⟨hc.2, hv ▸ hle⟩
      · simp at hv

theorem int64_of_lt (u : Nat) (h : u < 2 ^ 63) : int64 (u : Int) = u := by
  unfold int64
  norm_num at h ⊢
  omega

theorem int64_neg_int64 (u : Nat) (h : u ≤ 2 ^ 63) : int64 (-(int64 (u : Int))) = -(u : Int) := by
  unfold int64
  norm_num at h ⊢
  omega

theorem int32_of_range (i : Int) (h1 : INT32_MIN ≤ i) (h2 : i ≤ INT32_MAX) : int32 i = i := by
  unfold int32
  unfold INT32_MIN at h1
  unfold INT32_MAX at h2
  norm_num
  omega

/-- The sign handling of `ParseInt` at bit size 32 or 64, given the sign `neg`
and the unsigned part `s1` it passes to `ParseUint`. -/
theorem ParseInt_sign (s s1 : String) (neg : Bool) (bitSize : Nat)
    (hb : bitSize = 32 ∨ bitSize = 64) (hs : s ≠ "")
    (hneg : s.data.head? = some '-' ↔ neg = true)
    (hs1 : (if s.data.head? = some '+' then String.mk s.data.tail
      else if s.data.head? = some '-' then String.mk s.data.tail else s) = s1) :
    (∃ v : Nat, digitString s1.data = some v ∧
        v ≤ (if neg then 2 ^ (bitSize - 1) else 2 ^ (bitSize - 1) - 1) ∧
        ParseInt s bitSize = (if neg then -(v : Int) else (v : Int), none)) ∨
    ((¬ ∃ v : Nat, digitString s1.data = some v ∧
        v ≤ (if neg then 2 ^ (bitSize - 1) else 2 ^ (bitSize - 1) - 1)) ∧
      ∃ i k, ParseInt s bitSize = (i, some (Error.NumError fnParseInt s k))) := by
  obtain ⟨K, hK, hKpos, hK63, hmax, hbs0⟩ : ∃ K : Nat, 2 ^ (bitSize - 1) = K ∧ 0 < K ∧
      K ≤ 2 ^ 63 ∧ 2 ^ bitSize - 1 = 2 * K - 1 ∧
      (if bitSize = 0 then IntSize else bitSize) = bitSize := by
    rcases hb with rfl | rfl
    · exact ⟨2 ^ 31, by norm_num, by norm_num, by norm_num, by norm_num, by norm_num⟩
    · exact ⟨2 ^ 63, by norm_num, by norm_num, by norm_num, by norm_num, by norm_num⟩
  unfold ParseInt
  rw [if_neg hs]
  simp only [hs1, hbs0, hK]
  have hspec := ParseUint_spec s1 bitSize hb
  rw [hmax] at hspec
  rcases hspec with ⟨v, hv, hle, hp⟩ | ⟨hno, hp | hp⟩
  · simp only [hp, notRange]
    cases neg with
    | true =>
      have hn : s.data.head? = some '-' := hneg.2 rfl
      by_cases hr : v ≤ K
      · left
        refine ⟨v, hv, by simpa using hr, ?_⟩
        have h63 : v ≤ 2 ^ 63 := le_trans hr hK63
        simp [hn, int64_neg_int64 v h63, Nat.not_lt.mpr hr]
      · right
        refine ⟨?_, ?_⟩
        · rintro ⟨w, hw, hwle⟩
          rw [hv] at hw
          simp only [Option.some.injEq] at hw
          subst hw
          exact hr (by simpa using hwle)
        · rw [if_neg (by simp [hn]), if_pos ⟨hn, Nat.lt_of_not_le hr⟩]
          exact ⟨_, _, rfl⟩
    | false =>
      have hn : ¬ s.data.head? = some '-' := by
        intro h
        simpa using hneg.1 h
      by_cases hr : v ≤ K - 1
      · left
        refine ⟨v, hv, by simpa using hr, ?_⟩
        have h63 : v < 2 ^ 63 := by omega
        have hlt : ¬ K ≤ v := by omega
        rw [if_neg (by simp [hlt]), if_neg (by simp [hn])]
        simp [hn, int64_of_lt v h63]
      · right
        refine ⟨?_, ?_⟩
        · rintro ⟨w, hw, hwle⟩
          rw [hv] at hw
          simp only [Option.some.injEq] at hw
          subst hw
          exact hr (by simpa using hwle)
        · have hge : K ≤ v := by omega
          rw [if_pos ⟨hn, hge⟩]
          exact ⟨_, _, rfl⟩
  · right
    refine ⟨?_, 0, StrconvErr.ErrSyntax, ?_⟩
    · rintro ⟨w, hw, hwle⟩
      apply hno
      refine ⟨w, hw, le_trans hwle ?_⟩
      cases neg <;> simp <;> omega
    · simp [hp, notRange, syntaxError]
  · right
    refine ⟨?_, ?_⟩
    · rintro ⟨w, hw, hwle⟩
      apply hno
      refine ⟨w, hw, le_trans hwle ?_⟩
      cases neg <;> simp <;> omega
    · simp only [hp, notRange, rangeError]
      by_cases hn : s.data.head? = some '-'
      · have h2 : K = 2 ^ 31 ∨ K = 2 ^ 63 := by
          rcases hb with rfl | rfl
          · left; rw [← hK]
          · right; rw [← hK]
        have hgt : K < 2 * K - 1 := by
          rcases h2 with rfl | rfl <;> norm_num
        simp only [ne_eq, not_true_eq_false, ite_false, reduceCtorEq, ↓reduceIte]
        rw [if_neg (by simp [hn]), if_pos ⟨hn, hgt⟩]
        exact ⟨_, _, rfl⟩
      · have hge : K ≤ 2 * K - 1 := by omega
        simp only [ne_eq, not_true_eq_false, ite_false, reduceCtorEq, ↓reduceIte]
        rw [if_pos ⟨hn, hge⟩]
        exact ⟨_, _, rfl⟩

/-- At bit size 32 or 64, `ParseInt` succeeds exactly on the optionally signed
digit strings that denote an integer of that bit size, and then returns that
integer; on every other string it returns an error naming the string. -/
theorem ParseInt_spec (s : String) (bitSize : Nat) (hb : bitSize = 32 ∨ bitSize = 64)
    (hs : s ≠ "") :
    (∃ v : Int, signedDecimal s = some v ∧ -(2 : Int) ^ (bitSize - 1) ≤ v ∧
        v ≤ (2 : Int) ^ (bitSize - 1) - 1 ∧ ParseInt s bitSize = (v, none)) ∨
    ((¬ ∃ v : Int, signedDecimal s = some v ∧ -(2 : Int) ^ (bitSize - 1) ≤ v ∧
        v ≤ (2 : Int) ^ (bitSize - 1) - 1) ∧
      ∃ i k, ParseInt s bitSize = (i, some (Error.NumError fnParseInt s k))) := by
  obtain ⟨K, hK, hKi, hKpos⟩ : ∃ K : Nat, 2 ^ (bitSize - 1) = K ∧
      (2 : Int) ^ (bitSize - 1) = (K : Int) ∧ 0 < K := by
    refine ⟨2 ^ (bitSize - 1), rfl, by push_cast; rfl, by positivity⟩
  rw [hKi]
  obtain ⟨cs⟩ := s
  cases cs with
  | nil => exact absurd rfl hs
  | cons c cs =>
    by_cases hplus : c = '+'
    · subst hplus
      have h := ParseInt_sign (String.mk ('+' :: cs)) (String.mk cs) false bitSize hb hs
        (by simp) (by simp)
      simp only [hK, Bool.false_eq_true, if_false] at h
      rcases h with ⟨w, hw, hle, hp⟩ | ⟨hno, he⟩
      · left
        exact ⟨w, by simp [signedDecimal, hw], by omega, by omega, hp⟩
      · right
        refine ⟨?_, he⟩
        rintro ⟨v, hv, h1, h2⟩
        simp only [signedDecimal, if_true, Option.map_eq_some', Int.ofNat_eq_coe] at hv
        obtain ⟨w, hw, rfl⟩ := hv
        exact hno ⟨w, hw, by omega⟩
    · by_cases hminus : c = '-'
      · subst hminus
        have h := ParseInt_sign (String.mk ('-' :: cs)) (String.mk cs) true bitSize hb hs
          (by simp) (by simp)
        simp only [hK, if_true] at h
        rcases h with ⟨w, hw, hle, hp⟩ | ⟨hno, he⟩
        · left
          exact ⟨-(w : Int), by simp [signedDecimal, hw], by omega, by omega, hp⟩
        · right
          refine ⟨?_, he⟩
          rintro ⟨v, hv, h1, h2⟩
          simp only [signedDecimal, if_neg hplus, if_true, Option.map_eq_some', Int.ofNat_eq_coe] at hv
          obtain ⟨w, hw, rfl⟩ := hv
          exact hno ⟨w, hw, by omega⟩
      · have h := ParseInt_sign (String.mk (c :: cs)) (String.mk (c :: cs)) false bitSize hb hs
          (by simp [hminus]) (by simp [hplus, hminus])
        simp only [hK, Bool.false_eq_true, if_false] at h
        rcases h with ⟨w, hw, hle, hp⟩ | ⟨hno, he⟩
        · left
          exact ⟨w, by simp [signedDecimal, hplus, hminus, hw], by omega, by omega, hp⟩
        · right
          refine ⟨?_, he⟩
          rintro ⟨v, hv, h1, h2⟩
          simp only [signedDecimal, if_neg hplus, if_neg hminus, Option.map_eq_some', Int.ofNat_eq_coe] at hv
          obtain ⟨w, hw, rfl⟩ := hv
          exact hno ⟨w, hw, by omega⟩

/-! ## The decimal rendering is read back -/

theorem digitChar_toNat (m : Nat) (h : m < 10) : (Nat.digitChar m).toNat = 48 + m := by
  interval_cases m <;> rfl

theorem isDecDigit_digitChar (m : Nat) (h : m < 10) : isDecDigit (Nat.digitChar m) = true := by
  simp [isDecDigit, digitChar_toNat m h]
  omega

/-- The digits `Nat.toDigitsCore` puts in front of `ds`: one digit or more, all
of them base-10 digits, denoting `n`. -/
theorem toDigitsCore_spec : ∀ (fuel n : Nat) (ds : List Char), n < fuel →
    ∃ L : List Char, Nat.toDigitsCore 10 fuel n ds = L ++ ds ∧ L ≠ [] ∧
      L.all isDecDigit = true ∧ decValue 0 L = n := by
  intro fuel
  induction fuel with
  | zero => intro n ds h; omega
  | succ fuel ih =>
    intro n ds h
    have hmod : n % 10 < 10 := Nat.mod_lt _ (by norm_num)
    by_cases hz : n / 10 = 0
    · refine ⟨[Nat.digitChar (n % 10)], by simp [Nat.toDigitsCore, hz], by simp, ?_, ?_⟩
      · simp [isDecDigit_digitChar _ hmod]
      · simp [decValue, digitChar_toNat _ hmod]
        omega
    · have hlt : n / 10 < fuel := by omega
      obtain ⟨L, hL, -, hall, hval⟩ := ih (n / 10) (Nat.digitChar (n % 10) :: ds) hlt
      refine ⟨L ++ [Nat.digitChar (n % 10)], by simp [Nat.toDigitsCore, hz, hL], by simp, ?_, ?_⟩
      · simp [hall, isDecDigit_digitChar _ hmod]
      · rw [decValue_append, hval]
        simp [decValue, digitChar_toNat _ hmod]
        omega

theorem repr_spec (m : Nat) :
    (Nat.repr m).data ≠ [] ∧ (Nat.repr m).data.all isDecDigit = true ∧
      decValue 0 (Nat.repr m).data = m := by
  obtain ⟨L, hL, hne, hall, hval⟩ := toDigitsCore_spec (m + 1) m [] (Nat.lt_succ_self m)
  have hd : (Nat.repr m).data = L := by
    simp [Nat.repr, Nat.toDigits, hL, List.asString]
  rw [hd]
  exact ⟨hne, hall, hval⟩

theorem digitString_repr (m : Nat) : digitString (Nat.repr m).data = some m := by
  obtain ⟨hne, hall, hval⟩ := repr_spec m
  simp [digitString, hne, hall, hval]

theorem decimal_ne_empty (n : Int) : decimal n ≠ "" := by
  intro h
  have hd := congrArg String.data h
  cases n with
  | ofNat m => exact (repr_spec m).1 (by simpa [decimal] using hd)
  | negSucc m => simp [decimal] at hd

/-- The decimal rendering of `n` is an optionally signed digit string denoting `n`. -/
theorem signedDecimal_decimal (n : Int) : signedDecimal (decimal n) = some n := by
  cases n with
  | ofNat m =>
    obtain ⟨hne, hall, hval⟩ := repr_spec m
    have hds := digitString_repr m
    simp only [decimal, signedDecimal]
    cases hd : (Nat.repr m).data with
    | nil => exact absurd hd hne
    | cons c cs =>
      rw [hd] at hall hds
      have hc : isDecDigit c = true := by
        simp only [List.all_cons, Bool.and_eq_true] at hall
        exact hall.1
      simp only [isDecDigit, decide_eq_true_eq] at hc
      have hplus : c ≠ '+' := by
        rintro rfl
        simp at hc
      have hminus : c ≠ '-' := by
        rintro rfl
        simp at hc
      simp [hplus, hminus, hds]
  | negSucc m =>
    have hds := digitString_repr (m + 1)
    simp only [decimal, signedDecimal, String.data_append]
    simp [hds, Int.negSucc_eq]

theorem ParseInt_decimal_ok (n : Int) (bitSize : Nat) (hb : bitSize = 32 ∨ bitSize = 64)
    (h1 : -(2 : Int) ^ (bitSize - 1) ≤ n) (h2 : n ≤ (2 : Int) ^ (bitSize - 1) - 1) :
    ParseInt (decimal n) bitSize = (n, none) := by
  rcases ParseInt_spec (decimal n) bitSize hb (decimal_ne_empty n) with
    ⟨v, hv, -, -, hp⟩ | ⟨hno, -⟩
  · rw [signedDecimal_decimal] at hv
    simp only [Option.some.injEq] at hv
    rw [hp, hv]
  · exact absurd ⟨n, signedDecimal_decimal n, h1, h2⟩ hno

theorem ParseInt_decimal_err (n : Int) (bitSize : Nat) (hb : bitSize = 32 ∨ bitSize = 64)
    (h : n < -(2 : Int) ^ (bitSize - 1) ∨ (2 : Int) ^ (bitSize - 1) - 1 < n) :
    ∃ i k, ParseInt (decimal n) bitSize = (i, some (Error.NumError fnParseInt (decimal n) k)) := by
  rcases ParseInt_spec (decimal n) bitSize hb (decimal_ne_empty n) with
    ⟨v, hv, h1, h2, -⟩ | ⟨-, he⟩
  · rw [signedDecimal_decimal] at hv
    simp only [Option.some.injEq] at hv
    subst hv
    omega
  · exact he

theorem GetString_state (a : ActionHelper) (name : String) : (GetString a name).2 = a := by
  unfold GetString
  split
  · rfl
  · split <;> rfl

/-! ## The integer getters -/

/-- C5: with no error, when `GetString(name)` is the decimal rendering of an
integer `n` with `INT32_MIN ≤ n ≤ INT32_MAX`, `GetInt32(name)` returns exactly
`n` and `err` stays empty. -/
theorem GetInt32_in_range (a : ActionHelper) (name : String) (n : Int)
    (h : a.err = none) (hs : (GetString a name).1 = decimal n)
    (h1 : INT32_MIN ≤ n) (h2 : n ≤ INT32_MAX) :
    (GetInt32 a name).1 = n ∧ (GetInt32 a name).2.err = none := by
  have hp : ParseInt (decimal n) 32 = (n, none) :=
    ParseInt_decimal_ok n 32 (Or.inl rfl) (by simpa [INT32_MIN] using h1)
      (by simpa [INT32_MAX] using h2)
  simp [GetInt32, h, hs, decimal_ne_empty, hp, GetString_state, int32_of_range n h1 h2]

theorem GetInt32_in_range_witness :
    ((GetInt32 testHelper "32max").1 = 2147483647 ∧ (GetInt32 testHelper "32max").2.err = none) ∧
    ((GetInt32 testHelper "32min").1 = -2147483648 ∧
      (GetInt32 testHelper "32min").2.err = none) :=
  ⟨GetInt32_in_range testHelper "32max" 2147483647 rfl (by decide) (by decide) (by decide),
   GetInt32_in_range testHelper "32min" (-2147483648) rfl (by decide) (by decide) (by decide)⟩

/-- C6: with no error, when `GetString(name)` is the decimal rendering of an
integer `n` outside `[INT32_MIN, INT32_MAX]`, `GetInt32(name)` sets `err` and
returns 0, not a truncated or clamped value. -/
theorem GetInt32_out_of_range (a : ActionHelper) (name : String) (n : Int)
    (h : a.err = none) (hs : (GetString a name).1 = decimal n)
    (hn : n < INT32_MIN ∨ INT32_MAX < n) :
    (GetInt32 a name).1 = 0 ∧ (GetInt32 a name).2.err ≠ none := by
  obtain ⟨i, k, hp⟩ := ParseInt_decimal_err n 32 (Or.inl rfl)
    (by simpa [INT32_MIN, INT32_MAX] using hn)
  simp [GetInt32, h, hs, decimal_ne_empty, hp]

theorem GetInt32_out_of_range_witness :
    ((GetInt32 testHelper "64max").1 = 0 ∧ (GetInt32 testHelper "64max").2.err ≠ none) ∧
    ((GetInt32 testHelper "64min").1 = 0 ∧ (GetInt32 testHelper "64min").2.err ≠ none) :=
  ⟨GetInt32_out_of_range testHelper "64max" 9223372036854775807 rfl (by decide)
      (Or.inr (by decide)),
   GetInt32_out_of_range testHelper "64min" (-9223372036854775808) rfl (by decide)
      (Or.inl (by decide))⟩

/-- C7: with no error, when `GetString(name)` is the decimal rendering of an
integer `n` with `INT64_MIN ≤ n ≤ INT64_MAX`, `GetInt64(name)` returns exactly
`n` and `err` stays empty. -/
theorem GetInt64_in_range (a : ActionHelper) (name : String) (n : Int)
    (h : a.err = none) (hs : (GetString a name).1 = decimal n)
    (h1 : INT64_MIN ≤ n) (h2 : n ≤ INT64_MAX) :
    (GetInt64 a name).1 = n ∧ (GetInt64 a name).2.err = none := by
  have hp : ParseInt (decimal n) 64 = (n, none) :=
    ParseInt_decimal_ok n 64 (Or.inr rfl) (by simpa [INT64_MIN] using h1)
      (by simpa [INT64_MAX] using h2)
  simp [GetInt64, h, hs, decimal_ne_empty, hp, GetString_state]

theorem GetInt64_in_range_witness :
    ((GetInt64 testHelper "64max").1 = 9223372036854775807 ∧
      (GetInt64 testHelper "64max").2.err = none) ∧
    ((GetInt64 testHelper "64min").1 = -9223372036854775808 ∧
      (GetInt64 testHelper "64min").2.err = none) :=
  ⟨GetInt64_in_range testHelper "64max" 9223372036854775807 rfl (by decide) (by decide)
      (by decide),
   GetInt64_in_range testHelper "64min" (-9223372036854775808) rfl (by decide) (by decide)
      (by decide)⟩

/-- C8: with no error, `GetInt64(name)` sets `err` if and only if
`GetString(name)` is non-empty and is not an optionally signed base-10 digit
string denoting a value in `[INT64_MIN, INT64_MAX]`; whenever it sets `err` it
returns 0. -/
theorem GetInt64_err_iff (a : ActionHelper) (name : String) (h : a.err = none) :
    ((GetInt64 a name).2.err ≠ none ↔
      ((GetString a name).1 ≠ "" ∧
        ¬ ∃ v : Int, signedDecimal (GetString a name).1 = some v ∧
          INT64_MIN ≤ v ∧ v ≤ INT64_MAX)) ∧
    ((GetInt64 a name).2.err ≠ none → (GetInt64 a name).1 = 0) := by
  by_cases hs : (GetString a name).1 = ""
  · simp [GetInt64, h, hs, GetString_state]
  · rcases ParseInt_spec (GetString a name).1 64 (Or.inr rfl) hs with
      ⟨v, hv, h1, h2, hp⟩ | ⟨hno, i, k, hp⟩
    · have hyes : ∃ v : Int, signedDecimal (GetString a name).1 = some v ∧
          INT64_MIN ≤ v ∧ v ≤ INT64_MAX :=
        ⟨v, hv, by simpa [INT64_MIN] using h1, by simpa [INT64_MAX] using h2⟩
      simp [GetInt64, h, hs, hp, GetString_state, hyes]
    · have hno2 : ¬ ∃ v : Int, signedDecimal (GetString a name).1 = some v ∧
          INT64_MIN ≤ v ∧ v ≤ INT64_MAX := by
        rintro ⟨v, hv, h1, h2⟩
        exact hno ⟨v, hv, by simpa [INT64_MIN] using h1, by simpa [INT64_MAX] using h2⟩
      simp [GetInt64, h, hs, hp, hno2]

theorem GetInt64_err_iff_witness :
    (GetString testHelper "cursor").1 = "from_path" ∧
    (GetInt64 testHelper "cursor").2.err = some (syntaxError fnParseInt "from_path") ∧
    (((GetInt64 testHelper "cursor").2.err ≠ none ↔
      ((GetString testHelper "cursor").1 ≠ "" ∧
        ¬ ∃ v : Int, signedDecimal (GetString testHelper "cursor").1 = some v ∧
          INT64_MIN ≤ v ∧ v ≤ INT64_MAX)) ∧
    ((GetInt64 testHelper "cursor").2.err ≠ none → (GetInt64 testHelper "cursor").1 = 0)) :=
  ⟨by decide, by decide, GetInt64_err_iff testHelper "cursor" rfl⟩

/-- C9: with no error, when `GetString(name)` is the empty string, `GetInt64(name)`
and `GetInt32(name)` both return 0 and `err` stays empty. -/
theorem GetInt_of_empty (a : ActionHelper) (name : String)
    (h : a.err = none) (hs : (GetString a name).1 = "") :
    ((GetInt64 a name).1 = 0 ∧ (GetInt64 a name).2.err = none) ∧
    ((GetInt32 a name).1 = 0 ∧ (GetInt32 a name).2.err = none) := by
  simp [GetInt64, GetInt32, h, hs, GetString_state]

theorem GetInt_of_empty_witness :
    (testHelper.c.URLParams.lookup "blank" = some "" ∧
      ((GetInt64 testHelper "blank").1 = 0 ∧ (GetInt64 testHelper "blank").2.err = none) ∧
      ((GetInt32 testHelper "blank").1 = 0 ∧ (GetInt32 testHelper "blank").2.err = none)) ∧
    (testHelper.c.URLParams.lookup "id" = none ∧ testHelper.r.Query.lookup "id" = none ∧
      ((GetInt64 testHelper "id").1 = 0 ∧ (GetInt64 testHelper "id").2.err = none) ∧
      ((GetInt32 testHelper "id").1 = 0 ∧ (GetInt32 testHelper "id").2.err = none)) :=
  ⟨⟨by decide, GetInt_of_empty testHelper "blank" rfl (by decide)⟩,
   ⟨by decide, by decide, GetInt_of_empty testHelper "id" rfl (by decide)⟩⟩

/-! ## `GetPagingParams` -/

/-- C10: with no error and a non-empty `Last-Event-ID` header `hd`,
`GetPagingParams` returns `cursor = hd` whatever the path or query value of
`cursor` is, while order and limit are `GetString("order")` and
`GetInt32("limit")`. -/
theorem GetPagingParams_header_cursor (a : ActionHelper) (hd : String)
    (h : a.err = none) (hh : Header.Get a.r.Header "Last-Event-ID" = hd) (hne : hd ≠ "") :
    (GetPagingParams a).1 = (hd, (GetString a "order").1, (GetInt32 a "limit").1) := by
  have hr : (GetInt32 a "limit").2.r = a.r := by
    unfold GetInt32
    simp only [GetString_state]
    split
    · rfl
    · split
      · rfl
      · split <;> rfl
  simp [GetPagingParams, h, GetString_state, hr, hh, hne]

theorem GetPagingParams_header_cursor_witness :
    (GetString testHelper "cursor").1 = "from_path" ∧
    testHelper.r.Query.Get "cursor" = "hello" ∧
    (GetPagingParams testHelper).1 = ("from_header", "desc", 0) ∧
    (GetPagingParams testHelper).1
      = ("from_header", (GetString testHelper "order").1, (GetInt32 testHelper "limit").1) :=
  ⟨by decide, by decide, by decide,
    GetPagingParams_header_cursor testHelper "from_header" rfl (by decide) (by decide)⟩

/-! ## The getters on a helper with no error -/

theorem GetInt32_request (a : ActionHelper) (name : String) : (GetInt32 a name).2.r = a.r := by
  unfold GetInt32
  simp only [GetString_state]
  split
  · rfl
  · split
    · rfl
    · split <;> rfl

/-- Without an error, `GetPagingParams` is its three reads and the header override. -/
theorem GetPagingParams_eq (a : ActionHelper) (h : a.err = none) :
    GetPagingParams a =
      ((if Header.Get a.r.Header "Last-Event-ID" ≠ "" then Header.Get a.r.Header "Last-Event-ID"
          else (GetString a "cursor").1,
        (GetString a "order").1, (GetInt32 a "limit").1), (GetInt32 a "limit").2) := by
  simp [GetPagingParams, h, GetString_state, GetInt32_request]

/-- On a non-empty string and with no error, `GetInt32` returns the denoted
integer and leaves the helper as it is when the string is an optionally signed
digit string of a 32-bit value, and otherwise returns 0 and stores the error of
`ParseInt`. -/
theorem GetInt32_spec (a : ActionHelper) (name : String) (h : a.err = none)
    (hs : (GetString a name).1 ≠ "") :
    (∃ v : Int, signedDecimal (GetString a name).1 = some v ∧ INT32_MIN ≤ v ∧ v ≤ INT32_MAX ∧
        GetInt32 a name = (v, a)) ∨
    ((¬ ∃ v : Int, signedDecimal (GetString a name).1 = some v ∧
        INT32_MIN ≤ v ∧ v ≤ INT32_MAX) ∧
      ∃ k, GetInt32 a name
        = (0, { a with err := some (Error.NumError fnParseInt (GetString a name).1 k) })) := by
  rcases ParseInt_spec (GetString a name).1 32 (Or.inl rfl) hs with
    ⟨v, hv, h1, h2, hp⟩ | ⟨hno, i, k, hp⟩
  · left
    have h1' : INT32_MIN ≤ v := by simpa [INT32_MIN] using h1
    have h2' : v ≤ INT32_MAX := by simpa [INT32_MAX] using h2
    refine ⟨v, hv, h1', h2', ?_⟩
    simp [GetInt32, h, hs, hp, GetString_state, int32_of_range v h1' h2']
  · right
    refine ⟨?_, k, ?_⟩
    · rintro ⟨v, hv, h1, h2⟩
      exact hno ⟨v, hv, by simpa [INT32_MIN] using h1, by simpa [INT32_MAX] using h2⟩
    · simp [GetInt32, h, hs, hp, GetString_state]

/-- The same for `GetInt64` and 64-bit values. -/
theorem GetInt64_spec (a : ActionHelper) (name : String) (h : a.err = none)
    (hs : (GetString a name).1 ≠ "") :
    (∃ v : Int, signedDecimal (GetString a name).1 = some v ∧ INT64_MIN ≤ v ∧ v ≤ INT64_MAX ∧
        GetInt64 a name = (v, a)) ∨
    ((¬ ∃ v : Int, signedDecimal (GetString a name).1 = some v ∧
        INT64_MIN ≤ v ∧ v ≤ INT64_MAX) ∧
      ∃ k, GetInt64 a name
        = (0, { a with err := some (Error.NumError fnParseInt (GetString a name).1 k) })) := by
  rcases ParseInt_spec (GetString a name).1 64 (Or.inr rfl) hs with
    ⟨v, hv, h1, h2, hp⟩ | ⟨hno, i, k, hp⟩
  · left
    refine ⟨v, hv, by simpa [INT64_MIN] using h1, by simpa [INT64_MAX] using h2, ?_⟩
    simp [GetInt64, h, hs, hp, GetString_state]
  · right
    refine ⟨?_, k, ?_⟩
    · rintro ⟨v, hv, h1, h2⟩
      exact hno ⟨v, hv, by simpa [INT64_MIN] using h1, by simpa [INT64_MAX] using h2⟩
    · simp [GetInt64, h, hs, hp, GetString_state]

theorem GetInt32_empty (a : ActionHelper) (name : String) (h : a.err = none)
    (hs : (GetString a name).1 = "") : GetInt32 a name = (0, a) := by
  simp [GetInt32, h, hs, GetString_state]

theorem GetInt64_empty (a : ActionHelper) (name : String) (h : a.err = none)
    (hs : (GetString a name).1 = "") : GetInt64 a name = (0, a) := by
  simp [GetInt64, h, hs, GetString_state]

/-! ## `GetPagingParams` without the header, `GetAddress`, `GetPageQuery` -/

/-- C11: with no error and a `Last-Event-ID` header that is absent or empty,
`GetPagingParams` returns exactly `(GetString("cursor"), GetString("order"),
GetInt32("limit"))`; on the request `/?limit=2&cursor=hello` this is
`("hello", "", 2)` with no error. -/
theorem GetPagingParams_no_header (a : ActionHelper) (h : a.err = none)
    (hh : Header.Get a.r.Header "Last-Event-ID" = "") :
    (GetPagingParams a).1
      = ((GetString a "cursor").1, (GetString a "order").1, (GetInt32 a "limit").1) ∧
    ((GetPagingParams pagingHelper).1 = ("hello", "", 2) ∧
      (GetPagingParams pagingHelper).2.err = none) := by
  refine ⟨?_, by decide, by decide⟩
  rw [GetPagingParams_eq a h]
  simp [hh]

theorem GetPagingParams_no_header_witness :
    Header.Get pagingHelper.r.Header "Last-Event-ID" = "" ∧
    ((GetString pagingHelper "cursor").1, (GetString pagingHelper "order").1,
      (GetInt32 pagingHelper "limit").1) = ("hello", "", 2) ∧
    ((GetPagingParams pagingHelper).1
      = ((GetString pagingHelper "cursor").1, (GetString pagingHelper "order").1,
          (GetInt32 pagingHelper "limit").1) ∧
    ((GetPagingParams pagingHelper).1 = ("hello", "", 2) ∧
      (GetPagingParams pagingHelper).2.err = none)) :=
  ⟨by decide, by decide, GetPagingParams_no_header pagingHelper rfl (by decide)⟩

/-- C12: with no error, for every name and every codec, `GetAddress(name)`
returns exactly `GetString(name)`, whether or not validation succeeds, and
afterwards `err` is empty if and only if the codec accepts that string as an
account address. -/
theorem GetAddress_returns_raw (sb : StellarBase) (a : ActionHelper) (name : String)
    (h : a.err = none) :
    (GetAddress sb a name).1 = (GetString a name).1 ∧
    ((GetAddress sb a name).2.err = none ↔
      (sb.DecodeBase58Check sb.VersionByteAccountID (GetString a name).1).2 = none) := by
  simp [GetAddress, h]

theorem GetAddress_returns_raw_witness :
    ((GetAddress accountCodec addressHelper "addy").1
        = "gQANmQ3bQkt6VbPrqGmKHq1EuT2cRkFsftDfEhWqdvJgTiibyu" ∧
      (GetAddress accountCodec addressHelper "addy").2.err = none ∧
      (GetAddress accountCodec addressHelper "seed").1
        = "s3Fy8h5LEcYVE8aofthKWHeJpygbntw5HgcekFw93K6XqTW4gEx" ∧
      (GetAddress accountCodec addressHelper "seed").2.err
        = some (Error.External "invalid address")) ∧
    ((GetAddress accountCodec addressHelper "addy").1 = (GetString addressHelper "addy").1 ∧
      ((GetAddress accountCodec addressHelper "addy").2.err = none ↔
        (accountCodec.DecodeBase58Check accountCodec.VersionByteAccountID
          (GetString addressHelper "addy").1).2 = none)) ∧
    ((GetAddress accountCodec addressHelper "seed").1 = (GetString addressHelper "seed").1 ∧
      ((GetAddress accountCodec addressHelper "seed").2.err = none ↔
        (accountCodec.DecodeBase58Check accountCodec.VersionByteAccountID
          (GetString addressHelper "seed").1).2 = none)) :=
  ⟨by decide, GetAddress_returns_raw accountCodec addressHelper "addy" rfl,
    GetAddress_returns_raw accountCodec addressHelper "seed" rfl⟩

/-- C13: with no error, for a name absent from both the path parameters and
the query string and a codec that rejects the empty string, `GetAddress(name)`
sets `err` and returns the empty string. -/
theorem GetAddress_missing (sb : StellarBase) (a : ActionHelper) (name : String)
    (h : a.err = none) (hp : a.c.URLParams.lookup name = none)
    (hq : a.r.Query.lookup name = none)
    (hc : (sb.DecodeBase58Check sb.VersionByteAccountID "").2 ≠ none) :
    (GetAddress sb a name).1 = "" ∧ (GetAddress sb a name).2.err ≠ none := by
  have hs : (GetString a name).1 = "" := by
    simp [GetString, Values.Get, h, hp, hq]
  simp [GetAddress, h, hs, hc]

theorem GetAddress_missing_witness :
    (GetAddress accountCodec addressHelper "not_present").2.err
      = some (Error.External "invalid address") ∧
    (GetAddress accountCodec addressHelper "not_present").1 = "" ∧
    (GetAddress accountCodec addressHelper "not_present").2.err ≠ none :=
  ⟨by decide,
    GetAddress_missing accountCodec addressHelper "not_present" rfl (by decide) (by decide)
      (by decide)⟩

/-- C14: with no error and a `limit` parameter that is empty or a valid 32-bit
decimal integer, `GetPagingParams` leaves `err` empty, `GetPageQuery` returns
exactly the value the constructor returns for the `GetPagingParams` triple, and
afterwards `err` equals the error of the constructor. -/
theorem GetPageQuery_delegates {PageQuery : Type}
    (NewPageQuery : String → String → Int → PageQuery × Option Error) (a : ActionHelper)
    (h : a.err = none)
    (hl : (GetString a "limit").1 = "" ∨
      ∃ v : Int, signedDecimal (GetString a "limit").1 = some v ∧
        INT32_MIN ≤ v ∧ v ≤ INT32_MAX) :
    (GetPagingParams a).2.err = none ∧
    (GetPageQuery NewPageQuery a).1
      = (NewPageQuery (GetPagingParams a).1.1 (GetPagingParams a).1.2.1
          (GetPagingParams a).1.2.2).1 ∧
    (GetPageQuery NewPageQuery a).2.err
      = (NewPageQuery (GetPagingParams a).1.1 (GetPagingParams a).1.2.1
          (GetPagingParams a).1.2.2).2 := by
  refine ⟨?_, rfl, rfl⟩
  rw [GetPagingParams_eq a h]
  by_cases hs : (GetString a "limit").1 = ""
  · rw [GetInt32_empty a "limit" h hs]
    exact h
  · rcases GetInt32_spec a "limit" h hs with ⟨v, -, -, -, hg⟩ | ⟨hno, -⟩
    · rw [hg]
      exact h
    · rcases hl with hl | hl
      · exact absurd hl hs
      · exact absurd hl hno

theorem GetPageQuery_delegates_witness :
    ((GetPageQuery acceptAll pagingHelper).1 = ("hello", "", 2) ∧
      (GetPageQuery acceptAll pagingHelper).2.err = none ∧
      (GetPageQuery rejectEvery pagingHelper).2.err
        = some (Error.External "invalid page query")) ∧
    ((GetPagingParams pagingHelper).2.err = none ∧
      (GetPageQuery rejectEvery pagingHelper).1
        = (rejectEvery (GetPagingParams pagingHelper).1.1 (GetPagingParams pagingHelper).1.2.1
            (GetPagingParams pagingHelper).1.2.2).1 ∧
      (GetPageQuery rejectEvery pagingHelper).2.err
        = (rejectEvery (GetPagingParams pagingHelper).1.1 (GetPagingParams pagingHelper).1.2.1
            (GetPagingParams pagingHelper).1.2.2).2) :=
  ⟨by decide,
    GetPageQuery_delegates rejectEvery pagingHelper rfl
      (Or.inr ⟨2, by decide, by decide, by decide⟩)⟩

/-- C15 (the code at the failing input): on `/?limit=abc`, `GetPagingParams`
sets `err` to the parse error of `limit`, but `GetPageQuery` then assigns the
result of the constructor to `err`: with a constructor that accepts the triple,
`err` is empty after the call, and with one that rejects it, `err` is the error
of the constructor. The parse error is lost in both cases. -/
theorem GetPageQuery_loses_limit_error :
    (GetString badLimitHelper "limit").1 = "abc" ∧
    (GetPagingParams badLimitHelper).2.err = some (syntaxError fnParseInt "abc") ∧
    (GetPageQuery acceptAll badLimitHelper).1 = ("hello", "desc", 0) ∧
    (GetPageQuery acceptAll badLimitHelper).2.err = none ∧
    (GetPageQuery rejectEvery badLimitHelper).2.err
      = some (Error.External "invalid page query") := by
  decide

/-! ## The query string, the two integer getters, the failed limit, the frame -/

/-- C16: with no error and a name that is not a key of the path parameters,
`GetString(name)` returns the first value of the name in the query string when
the query string has one or more values for it, and the empty string when it
has none. -/
theorem GetString_query_first (a : ActionHelper) (name : String)
    (h : a.err = none) (hp : a.c.URLParams.lookup name = none) :
    (∀ (v : String) (vs : List String), a.r.Query.lookup name = some (v :: vs) →
      (GetString a name).1 = v) ∧
    (a.r.Query.lookup name = some [] ∨ a.r.Query.lookup name = none →
      (GetString a name).1 = "") := by
  refine ⟨?_, ?_⟩
  · intro v vs hq
    simp [GetString, Values.Get, h, hp, hq]
  · rintro (hq | hq) <;> simp [GetString, Values.Get, h, hp, hq]

theorem GetString_query_first_witness :
    (GetString testHelper "order").1 = "desc" ∧ (GetString testHelper "id").1 = "" :=
  ⟨(GetString_query_first testHelper "order" rfl (by decide)).1 "desc" ["asc"] (by decide),
   (GetString_query_first testHelper "id" rfl (by decide)).2 (Or.inr (by decide))⟩

/-- C17: with no error, `GetInt32(name)` leaves `err` empty if and only if
`GetInt64(name)` on the same helper leaves `err` empty with a result in
`[INT32_MIN, INT32_MAX]`, and in that case the two results are the same
integer. -/
theorem GetInt32_iff_GetInt64 (a : ActionHelper) (name : String) (h : a.err = none) :
    ((GetInt32 a name).2.err = none ↔
      ((GetInt64 a name).2.err = none ∧ INT32_MIN ≤ (GetInt64 a name).1 ∧
        (GetInt64 a name).1 ≤ INT32_MAX)) ∧
    ((GetInt32 a name).2.err = none → (GetInt32 a name).1 = (GetInt64 a name).1) := by
  by_cases hs : (GetString a name).1 = ""
  · rw [GetInt32_empty a name h hs, GetInt64_empty a name h hs]
    simp [h, INT32_MIN, INT32_MAX]
  · rcases GetInt32_spec a name h hs with ⟨v, hv, h1, h2, hg⟩ | ⟨hno, k, hg⟩
    · rcases GetInt64_spec a name h hs with ⟨w, hw, -, -, hg64⟩ | ⟨hno64, -⟩
      · rw [hv] at hw
        simp only [Option.some.injEq] at hw
        subst hw
        rw [hg, hg64]
        simp [h, h1, h2]
      · refine absurd ⟨v, hv, ?_, ?_⟩ hno64
        · unfold INT32_MIN at h1
          unfold INT64_MIN
          omega
        · unfold INT32_MAX at h2
          unfold INT64_MAX
          omega
    · rcases GetInt64_spec a name h hs with ⟨w, hw, -, -, hg64⟩ | ⟨-, k64, hg64⟩
      · rw [hg, hg64]
        have hout : ¬ (INT32_MIN ≤ w ∧ w ≤ INT32_MAX) := fun hr => hno ⟨w, hw, hr.1, hr.2⟩
        simp [h]
        intro h1
        by_contra h2
        exact hout ⟨h1, not_lt.mp h2⟩
      · rw [hg, hg64]
        simp

theorem GetInt32_iff_GetInt64_witness :
    ((GetInt32 testHelper "64max").2.err ≠ none ∧ (GetInt64 testHelper "64max").2.err = none ∧
      (GetInt64 testHelper "64max").1 = 9223372036854775807 ∧
      (GetInt32 testHelper "32min").1 = -2147483648 ∧
      (GetInt64 testHelper "32min").1 = -2147483648) ∧
    (((GetInt32 testHelper "64max").2.err = none ↔
      ((GetInt64 testHelper "64max").2.err = none ∧
        INT32_MIN ≤ (GetInt64 testHelper "64max").1 ∧
        (GetInt64 testHelper "64max").1 ≤ INT32_MAX)) ∧
    ((GetInt32 testHelper "64max").2.err = none →
      (GetInt32 testHelper "64max").1 = (GetInt64 testHelper "64max").1)) ∧
    (((GetInt32 testHelper "32min").2.err = none ↔
      ((GetInt64 testHelper "32min").2.err = none ∧
        INT32_MIN ≤ (GetInt64 testHelper "32min").1 ∧
        (GetInt64 testHelper "32min").1 ≤ INT32_MAX)) ∧
    ((GetInt32 testHelper "32min").2.err = none →
      (GetInt32 testHelper "32min").1 = (GetInt64 testHelper "32min").1)) :=
  ⟨by decide, GetInt32_iff_GetInt64 testHelper "64max" rfl,
    GetInt32_iff_GetInt64 testHelper "32min" rfl⟩

/-- C18: with no error and a `limit` parameter that is non-empty and not a
valid 32-bit decimal integer, `GetPagingParams` sets `err` to the error of
`ParseInt` and returns limit 0, while order is `GetString("order")` and cursor
is the non-empty `Last-Event-ID` header if present, otherwise
`GetString("cursor")`, both read on the helper before the failure. -/
theorem GetPagingParams_bad_limit (a : ActionHelper) (h : a.err = none)
    (hs : (GetString a "limit").1 ≠ "")
    (hbad : ¬ ∃ v : Int, signedDecimal (GetString a "limit").1 = some v ∧
      INT32_MIN ≤ v ∧ v ≤ INT32_MAX) :
    (∃ k, (GetPagingParams a).2.err
      = some (Error.NumError fnParseInt (GetString a "limit").1 k)) ∧
    (GetPagingParams a).1
      = (if Header.Get a.r.Header "Last-Event-ID" ≠ "" then Header.Get a.r.Header "Last-Event-ID"
          else (GetString a "cursor").1,
        (GetString a "order").1, 0) := by
  rw [GetPagingParams_eq a h]
  rcases GetInt32_spec a "limit" h hs with ⟨v, hv, h1, h2, -⟩ | ⟨-, k, hg⟩
  · exact absurd ⟨v, hv, h1, h2⟩ hbad
  · rw [hg]
    exact ⟨⟨k, rfl⟩, rfl⟩

theorem GetPagingParams_bad_limit_witness :
    ((GetPagingParams badLimitHelper).1 = ("hello", "desc", 0) ∧
      (GetPagingParams badLimitHelper).2.err = some (syntaxError fnParseInt "abc")) ∧
    ((∃ k, (GetPagingParams badLimitHelper).2.err
      = some (Error.NumError fnParseInt (GetString badLimitHelper "limit").1 k)) ∧
    (GetPagingParams badLimitHelper).1
      = (if Header.Get badLimitHelper.r.Header "Last-Event-ID" ≠ ""
          then Header.Get badLimitHelper.r.Header "Last-Event-ID"
          else (GetString badLimitHelper "cursor").1,
        (GetString badLimitHelper "order").1, 0)) :=
  ⟨by decide,
    GetPagingParams_bad_limit badLimitHelper rfl (by decide) (by
      rintro ⟨v, hv, -, -⟩
      have hn : signedDecimal (GetString badLimitHelper "limit").1 = none := by decide
      rw [hn] at hv
      exact Option.noConfusion hv)⟩

/-- C19: for every helper and every name, `GetString(name)` and `Err()` leave
the whole helper unchanged (`err`, path parameters, query string and headers),
and `Err()` returns the current `err`; in particular `GetString` never sets an
error. -/
theorem GetString_Err_frame (a : ActionHelper) (name : String) :
    (GetString a name).2 = a ∧ (Err a).2 = a ∧ (Err a).1 = a.err ∧
    (GetString a name).2.err = a.err := by
  have hg : (GetString a name).2 = a := by
    unfold GetString
    split
    · rfl
    · split <;> rfl
  exact ⟨hg, rfl, rfl, by rw [hg]⟩

end Horizon
